import Mathlib

/-!
Verification of the storage/handler core of adobe/helix-content-bus.

The development shallowly embeds the final revisions of the repository
source (src/storage.js, src/index.js, src/utils.js) as executable Lean
functions.  JavaScript objects are modelled as association lists of
string keys to `Val` values, the S3 backend as an explicit state record,
and every storage operation threads client state, backend state and an
event trace recording which backend (network) commands were issued.
-/

set_option autoImplicit false

namespace ContentBus

/-! ## JavaScript value model

Fetch options in `src/utils.js` are plain JavaScript objects.  We model
them as association lists of string keys; `Val.undef` stands for both
`undefined` and `null` (both are falsy and neither survives a truthiness
test in the embedded code). -/

inductive Val : Type where
  | undef : Val
  | str (s : String) : Val
  | num (n : Nat) : Val
  | bool (b : Bool) : Val
  | obj (fields : List (String × Val)) : Val

/-- JavaScript truthiness for the values the handler manipulates. -/
def truthy : Val → Bool
  | Val.undef => false
  | Val.str s => !s.isEmpty
  | Val.num n => n != 0
  | Val.bool b => b
  | Val.obj _ => true

/-- Property read `o[k]`; an absent property reads as `undefined`. -/
def objGet : List (String × Val) → String → Val
  | [], _ => Val.undef
  | p :: rest, k => if p.1 = k then p.2 else objGet rest k

/-- Whether the object has a property named `k`. -/
def objHasKey (o : List (String × Val)) (k : String) : Bool :=
  o.any (fun p => p.1 = k)

/-- Overwrite every binding of key `k` (a JavaScript object holds at most
one, kept in insertion order). -/
def objUpd : List (String × Val) → String → Val → List (String × Val)
  | [], _, _ => []
  | p :: rest, k, v => (if p.1 = k then (k, v) else p) :: objUpd rest k v

/-- Property write `o[k] = v`: update in place if present, else append,
preserving JavaScript property insertion order. -/
def objSet (o : List (String × Val)) (k : String) (v : Val) : List (String × Val) :=
  if objHasKey o k then objUpd o k v else o ++ [(k, v)]

/-- Property delete `delete o[k]`. -/
def objDel (o : List (String × Val)) (k : String) : List (String × Val) :=
  o.filter (fun p => p.1 ≠ k)

/-- The key list `Object.keys(o)`. -/
def objKeys (o : List (String × Val)) : List String :=
  o.map Prod.fst

/-- Object spread `{...base, ...ext}` as iterated property writes. -/
def objSpread (base ext : List (String × Val)) : List (String × Val) :=
  ext.foldl (fun acc p => objSet acc p.1 p.2) base

/-! ## getFetchOptions (src/utils.js, lines 33-61) -/

/-- A character of the character class `[A-Z0-9_]` (by code point). -/
def isEnvKeyChar (c : Char) : Bool :=
  (65 ≤ c.toNat && c.toNat ≤ 90) || (48 ≤ c.toNat && c.toNat ≤ 57) || c = '_'

/-- The secret-scrubbing test `key.match(/^[A-Z0-9_]+$/)` of
`getFetchOptions`: a non-empty key made of uppercase letters, digits and
underscores. -/
def isEnvKey (s : String) : Bool :=
  !s.isEmpty && s.data.all isEnvKeyChar

/-- Models the opaque `AbortSignal` produced by the external
`timeoutSignal(ms)` helper of helix-fetch; only its presence matters. -/
def timeoutSignalVal (ms : Val) : Val :=
  Val.obj [("timeoutMs", ms)]

/-- Header write `o.headers[name] = v`.  In strict mode JavaScript the
write throws a `TypeError` when `o.headers` is not an object (for
example after the spread copied a primitive `headers` property), which
we model as `Except.error`. -/
def setHeader (o : List (String × Val)) (name : String) (v : Val) :
    Except Unit (List (String × Val)) :=
  match objGet o "headers" with
  | Val.obj hm => Except.ok (objSet o "headers" (Val.obj (objSet hm name v)))
  | _ => Except.error ()

/-- The final fold of `getFetchOptions`: delete every remaining property
whose key matches `/^[A-Z0-9_]+$/` ("delete all secrets"). -/
def envScrub (o : List (String × Val)) (ks : List String) : List (String × Val) :=
  ks.foldl (fun acc k => if isEnvKey k then objDel acc k else acc) o

/-- The `if (fetchopts.token)` step of `getFetchOptions`, applied after
`delete fetchopts.requestId`. -/
def gfoStep5 (fo4 : List (String × Val)) : Except Unit (List (String × Val)) :=
  if truthy (objGet fo4 "token") then
    setHeader fo4 "x-github-token" (objGet fo4 "token")
  else Except.ok fo4

/-- The second half of `getFetchOptions`, from `delete fetchopts.requestId`
on: move a truthy `token` into the `x-github-token` header, delete the
`token` property and delete all environment-style keys. -/
def gfoTail (fo3 : List (String × Val)) : Except Unit (List (String × Val)) :=
  match gfoStep5 (objDel fo3 "requestId") with
  | Except.error e => Except.error e
  | Except.ok fo5 =>
    Except.ok (envScrub (objDel fo5 "token") (objKeys (objDel fo5 "token")))

/-- The `if (options.requestId)` step of `getFetchOptions`. -/
def gfoStep1 (options fo0 : List (String × Val)) : Except Unit (List (String × Val)) :=
  if truthy (objGet options "requestId") then
    setHeader fo0 "x-request-id" (objGet options "requestId")
  else Except.ok fo0

/-- The `if (options.fetchTimeout)` step of `getFetchOptions`. -/
def gfoSignal (options fo1 : List (String × Val)) : List (String × Val) :=
  if truthy (objGet options "fetchTimeout") then
    objSet fo1 "signal" (timeoutSignalVal (objGet options "fetchTimeout"))
  else fo1

/-- The `if (options.lastModified)` step of `getFetchOptions`. -/
def gfoStep3 (options fo2 : List (String × Val)) : Except Unit (List (String × Val)) :=
  if truthy (objGet options "lastModified") then
    setHeader fo2 "if-modified-since" (objGet options "lastModified")
  else Except.ok fo2

/-- `getFetchOptions(options)` from src/utils.js: spread the handler
options over `{headers: \x7b\x7d}`, turn `requestId`, `fetchTimeout`,
`lastModified` and `token` into the corresponding header/signal fields,
drop the `requestId`/`token` properties, and delete every
environment-style (all-uppercase) key. -/
def getFetchOptions (options : List (String × Val)) :
    Except Unit (List (String × Val)) :=
  match gfoStep1 options (objSpread [("headers", Val.obj [])] options) with
  | Except.error e => Except.error e
  | Except.ok fo1 =>
    match gfoStep3 options (gfoSignal options fo1) with
    | Except.error e => Except.error e
    | Except.ok fo3 => gfoTail fo3

/-- The value stored under header `n` of the `headers` property, when
that property is an object. -/
def headerVal (o : List (String × Val)) (n : String) : Option Val :=
  match objGet o "headers" with
  | Val.obj hm => some (objGet hm n)
  | _ => none

/-! ## S3 backend model (the @aws-sdk/client-s3 collaborator)

`src/storage.js` talks to S3 through nine commands.  We model the slice
of backend state one `AWSStorage` client can observe: whether its bucket
exists, whether the template bucket's tags are readable, the objects of
the bucket, and an optional injected fault that makes every command fail
with that error (standing for arbitrary backend failures such as 403s).
Backend errors carry `$metadata.httpStatusCode` and the S3 error `Code`. -/

structure BackendErr : Type where
  httpStatusCode : Nat
  code : Option String
deriving DecidableEq, Repr

/-- One stored S3 object: `Body`, `ContentEncoding`, the dynamic system
properties set via `input[property] = value` (`ContentType`, ...) and
the user `Metadata` map. -/
structure S3Object : Type where
  body : List Nat
  contentEncoding : Option String
  props : List (String × String)
  metadata : List (String × String)
deriving DecidableEq, Repr

structure Backend : Type where
  bucketExists : Bool
  templateOk : Bool
  objects : List (String × S3Object)
  fault : Option BackendErr
deriving DecidableEq, Repr

/-- The backend commands a client may issue over the network. -/
inductive S3Event : Type where
  | headBucket : S3Event
  | getBucketTagging : S3Event
  | createBucket : S3Event
  | putPublicAccessBlock : S3Event
  | putBucketTagging : S3Event
  | getObject (key : String) : S3Event
  | headObject (key : String) : S3Event
  | putObject (key : String) : S3Event
  | copyObject (src dest : String) : S3Event
deriving DecidableEq, Repr

/-- Object lookup by key in a bucket listing. -/
def lookupObj : List (String × S3Object) → String → Option S3Object
  | [], _ => none
  | p :: rest, k => if p.1 = k then some p.2 else lookupObj rest k

/-- An S3 `PutObject`/`CopyObject` overwrite of key `k`. -/
def putObj (l : List (String × S3Object)) (k : String) (v : S3Object) :
    List (String × S3Object) :=
  (k, v) :: l.filter (fun p => p.1 ≠ k)

def Backend.sendHeadBucket (be : Backend) : Except BackendErr Unit :=
  match be.fault with
  | some e => Except.error e
  | none => if be.bucketExists then Except.ok () else Except.error ⟨404, none⟩

def Backend.sendGetBucketTagging (be : Backend) :
    Except BackendErr (List (String × String)) :=
  match be.fault with
  | some e => Except.error e
  | none => if be.templateOk then Except.ok [] else Except.error ⟨404, none⟩

def Backend.sendCreateBucket (be : Backend) : Except BackendErr Backend :=
  match be.fault with
  | some e => Except.error e
  | none => Except.ok { be with bucketExists := true }

def Backend.sendPutPublicAccessBlock (be : Backend) : Except BackendErr Unit :=
  match be.fault with
  | some e => Except.error e
  | none => Except.ok ()

def Backend.sendPutBucketTagging (be : Backend) : Except BackendErr Unit :=
  match be.fault with
  | some e => Except.error e
  | none => Except.ok ()

def Backend.sendGetObject (be : Backend) (key : String) :
    Except BackendErr S3Object :=
  match be.fault with
  | some e => Except.error e
  | none =>
    if be.bucketExists then
      match lookupObj be.objects key with
      | some obj => Except.ok obj
      | none => Except.error ⟨404, some "NoSuchKey"⟩
    else Except.error ⟨404, some "NoSuchBucket"⟩

def Backend.sendHeadObject (be : Backend) (key : String) :
    Except BackendErr S3Object :=
  match be.fault with
  | some e => Except.error e
  | none =>
    if be.bucketExists then
      match lookupObj be.objects key with
      | some obj => Except.ok obj
      | none => Except.error ⟨404, some "NoSuchKey"⟩
    else Except.error ⟨404, some "NoSuchBucket"⟩

def Backend.sendPutObject (be : Backend) (key : String) (obj : S3Object) :
    Except BackendErr Backend :=
  match be.fault with
  | some e => Except.error e
  | none =>
    if be.bucketExists then
      Except.ok { be with objects := putObj be.objects key obj }
    else Except.error ⟨404, some "NoSuchBucket"⟩

def Backend.sendCopyObject (be : Backend) (src dest : String) :
    Except BackendErr Backend :=
  match be.fault with
  | some e => Except.error e
  | none =>
    if be.bucketExists then
      match lookupObj be.objects src with
      | some obj => Except.ok { be with objects := putObj be.objects dest obj }
      | none => Except.error ⟨404, some "NoSuchKey"⟩
    else Except.error ⟨404, some "NoSuchBucket"⟩

/-! ## AWSStorage client (src/storage.js) -/

/-- The client-side state of an `AWSStorage` instance: its bucket name,
the `readOnly` flag and the `_initialized` latch. -/
structure AWSStorage : Type where
  bucket : String
  readOnly : Bool
  initDone : Bool
deriving DecidableEq, Repr

/-- Errors thrown by client operations: the read-only guard, a backend
error rethrown unchanged, and the `source does not exist` error with
`status = 404` fabricated by `copy`. -/
inductive OpErr : Type where
  | readOnly (bucket : String) : OpErr
  | backend (e : BackendErr) : OpErr
  | srcNotFound (src : String) : OpErr
deriving DecidableEq, Repr

/-- The JavaScript `e.status` field of a thrown error (only the
`source does not exist` error carries one). -/
def OpErr.statusOf : OpErr → Option Nat
  | OpErr.srcNotFound _ => some 404
  | _ => none

/-- Result of one client operation: the value or thrown error, the
updated client and backend state and the trace of backend commands. -/
structure OpOut (α : Type) : Type where
  result : Except OpErr α
  client : AWSStorage
  backend : Backend
  events : List S3Event

/-- `_bucketExists` (storage.js 109-122): `HeadBucketCommand`, catching
only the 404 case. -/
def AWSStorage.bucketExistsQ (be : Backend) :
    Except OpErr Bool × List S3Event :=
  match be.sendHeadBucket with
  | Except.ok _ => (Except.ok true, [S3Event.headBucket])
  | Except.error e =>
    if e.httpStatusCode ≠ 404 then (Except.error (OpErr.backend e), [S3Event.headBucket])
    else (Except.ok false, [S3Event.headBucket])

/-- `_bucketCreate` (storage.js 124-163): read the template bucket tags
(fatal when unreadable), create the bucket, block public access, put the
tags. -/
def AWSStorage.bucketCreate (be : Backend) :
    Except OpErr Backend × List S3Event :=
  match be.sendGetBucketTagging with
  | Except.error e => (Except.error (OpErr.backend e), [S3Event.getBucketTagging])
  | Except.ok _tags =>
    match be.sendCreateBucket with
    | Except.error e =>
      (Except.error (OpErr.backend e), [S3Event.getBucketTagging, S3Event.createBucket])
    | Except.ok be1 =>
      match be1.sendPutPublicAccessBlock with
      | Except.error e =>
        (Except.error (OpErr.backend e),
          [S3Event.getBucketTagging, S3Event.createBucket, S3Event.putPublicAccessBlock])
      | Except.ok _ =>
        match be1.sendPutBucketTagging with
        | Except.error e =>
          (Except.error (OpErr.backend e),
            [S3Event.getBucketTagging, S3Event.createBucket,
              S3Event.putPublicAccessBlock, S3Event.putBucketTagging])
        | Except.ok _ =>
          (Except.ok be1,
            [S3Event.getBucketTagging, S3Event.createBucket,
              S3Event.putPublicAccessBlock, S3Event.putBucketTagging])

/-- `_init` (storage.js 165-177): at most once per client; read-only
clients skip the existence check and creation. -/
def AWSStorage.initOp (st : AWSStorage) (be : Backend) : OpOut Unit :=
  if st.initDone then ⟨Except.ok (), st, be, []⟩
  else if st.readOnly then ⟨Except.ok (), { st with initDone := true }, be, []⟩
  else
    match AWSStorage.bucketExistsQ be with
    | (Except.error e, evs) => ⟨Except.error e, st, be, evs⟩
    | (Except.ok true, evs) => ⟨Except.ok (), { st with initDone := true }, be, evs⟩
    | (Except.ok false, evs) =>
      match AWSStorage.bucketCreate be with
      | (Except.error e, evs2) => ⟨Except.error e, st, be, evs ++ evs2⟩
      | (Except.ok be1, evs2) =>
        ⟨Except.ok (), { st with initDone := true }, be1, evs ++ evs2⟩

/-- A compression codec standing in for the external zlib
`gzip`/`gunzip` pair used by storage.js. -/
structure Codec : Type where
  comp : List Nat → List Nat
  decomp : List Nat → List Nat

/-- The body of `load` after the `await this._init()` line. -/
def AWSStorage.loadAfterInit (codec : Codec) (i : OpOut Unit) (key : String) :
    OpOut (Option (List Nat)) :=
  match i.result with
  | Except.error e => ⟨Except.error e, i.client, i.backend, i.events⟩
  | Except.ok _ =>
    match i.backend.sendGetObject key with
    | Except.ok obj =>
      if obj.contentEncoding = some "gzip" then
        ⟨Except.ok (some (codec.decomp obj.body)), i.client, i.backend,
          i.events ++ [S3Event.getObject key]⟩
      else
        ⟨Except.ok (some obj.body), i.client, i.backend,
          i.events ++ [S3Event.getObject key]⟩
    | Except.error e =>
      if e.httpStatusCode ≠ 404 then
        ⟨Except.error (OpErr.backend e), i.client, i.backend,
          i.events ++ [S3Event.getObject key]⟩
      else
        ⟨Except.ok none, i.client, i.backend, i.events ++ [S3Event.getObject key]⟩

/-- `load` (storage.js 185-211): `GetObjectCommand`, gunzip when the
stored `ContentEncoding` is `gzip`, `null` on 404, rethrow otherwise. -/
def AWSStorage.load (codec : Codec) (st : AWSStorage) (be : Backend) (key : String) :
    OpOut (Option (List Nat)) :=
  AWSStorage.loadAfterInit codec (AWSStorage.initOp st be) key

/-- The body of `metadata` after the `await this._init()` line. -/
def AWSStorage.metadataAfterInit (i : OpOut Unit) (key : String) :
    OpOut (Option (List (String × String))) :=
  match i.result with
  | Except.error e => ⟨Except.error e, i.client, i.backend, i.events⟩
  | Except.ok _ =>
    match i.backend.sendHeadObject key with
    | Except.ok obj =>
      ⟨Except.ok (some obj.metadata), i.client, i.backend,
        i.events ++ [S3Event.headObject key]⟩
    | Except.error e =>
      if e.httpStatusCode ≠ 404 then
        ⟨Except.error (OpErr.backend e), i.client, i.backend,
          i.events ++ [S3Event.headObject key]⟩
      else
        ⟨Except.ok none, i.client, i.backend, i.events ++ [S3Event.headObject key]⟩

/-- `metadata` (storage.js 219-240): `HeadObjectCommand`, returning only
`result.Metadata`; `null` on 404, rethrow otherwise. -/
def AWSStorage.metadataOp (st : AWSStorage) (be : Backend) (key : String) :
    OpOut (Option (List (String × String))) :=
  AWSStorage.metadataAfterInit (AWSStorage.initOp st be) key

/-! ## Header classification in store (storage.js 44-55 and 267-277) -/

/-- Header names that AWS considers system defined (storage.js 44-48). -/
def AWS_S3_SYSTEM_HEADERS : List String :=
  ["cache-control", "content-type", "expires"]

/-- Response header names that need a different metadata name
(storage.js 53-55). -/
def METADATA_HEADER_MAP : List (String × String) :=
  [("last-modified", "x-source-last-modified")]

/-- `name.split('-')` on the character list (JavaScript `split` keeps
empty segments). -/
def splitSegs : List Char → List (List Char)
  | [] => [[]]
  | c :: rest =>
    if c = '-' then [] :: splitSegs rest
    else
      match splitSegs rest with
      | [] => [[c]]
      | s :: ss => (c :: s) :: ss

/-- One segment step of the system-property transform:
`seg.charAt(0).toUpperCase() + seg.slice(1)`. -/
def capitalizeSegment : List Char → List Char
  | [] => []
  | c :: cs => c.toUpper :: cs

/-- `name.split('-').map(capitalize).join('')` from storage.js line 271:
the backend-native property name for a system header. -/
def pascalProperty (name : String) : String :=
  String.mk (List.flatten ((splitSegs name.data).map capitalizeSegment))

/-- Where one response header goes when stored. -/
inductive HeaderRoute : Type where
  | system (property : String) : HeaderRoute
  | metaEntry (key : String) : HeaderRoute
deriving DecidableEq, Repr

/-- Lookup in a string association map (JavaScript `Map.get` /
property read returning `undefined` when absent). -/
def getAssoc : List (String × String) → String → Option String
  | [], _ => none
  | p :: rest, k => if p.1 = k then some p.2 else getAssoc rest k

/-- The branch of the `forEach` in store (storage.js 267-277): system
headers become command properties, everything else goes to `Metadata`
under `METADATA_HEADER_MAP.get(name) || name`. -/
def classifyHeader (name : String) : HeaderRoute :=
  if AWS_S3_SYSTEM_HEADERS.contains name then
    HeaderRoute.system (pascalProperty name)
  else
    HeaderRoute.metaEntry ((getAssoc METADATA_HEADER_MAP name).getD name)

/-- Association write used for `input[property] = value` and
`input.Metadata[key] = value`. -/
def setAssoc (l : List (String × String)) (k v : String) : List (String × String) :=
  if l.any (fun p => p.1 = k) then
    l.map (fun p => if p.1 = k then (k, v) else p)
  else l ++ [(k, v)]

/-- The `PutObjectCommand` input accumulated by store. -/
structure PutInput : Type where
  body : List Nat
  contentEncoding : Option String
  key : String
  props : List (String × String)
  metadata : List (String × String)
deriving DecidableEq, Repr

/-- One iteration of the header `forEach` of store. -/
def applyHeader (input : PutInput) (name value : String) : PutInput :=
  match classifyHeader name with
  | HeaderRoute.system property => { input with props := setAssoc input.props property value }
  | HeaderRoute.metaEntry k => { input with metadata := setAssoc input.metadata k value }

/-- The normalized response handed to store: its buffered body bytes and
its header entries (helix-fetch yields lower-cased header names). -/
structure ResponseData : Type where
  body : List Nat
  headers : List (String × String)
deriving DecidableEq, Repr

/-- The `PutObjectCommand` input assembled by store: gzipped body,
`ContentEncoding: gzip`, and every response header folded in through
`applyHeader`. -/
def storeInput (codec : Codec) (key : String) (res : ResponseData) : PutInput :=
  res.headers.foldl (fun acc p => applyHeader acc p.1 p.2)
    { body := codec.comp res.body, contentEncoding := some "gzip", key := key,
      props := [], metadata := [] }

/-- The stored object corresponding to a `PutInput`. -/
def objOfInput (input : PutInput) : S3Object :=
  ⟨input.body, input.contentEncoding, input.props, input.metadata⟩

/-- The body of `store` after the `await this._init()` line. -/
def AWSStorage.storeAfterInit (codec : Codec) (i : OpOut Unit) (key : String)
    (res : ResponseData) : OpOut Unit :=
  match i.result with
  | Except.error e => ⟨Except.error e, i.client, i.backend, i.events⟩
  | Except.ok _ =>
    match i.backend.sendPutObject key (objOfInput (storeInput codec key res)) with
    | Except.error e =>
      ⟨Except.error (OpErr.backend e), i.client, i.backend,
        i.events ++ [S3Event.putObject key]⟩
    | Except.ok be2 =>
      ⟨Except.ok (), i.client, be2, i.events ++ [S3Event.putObject key]⟩

/-- `store` (storage.js 249-281): read-only guard, lazy init, gzip the
body, classify the response headers into the command input, and
`PutObjectCommand`. -/
def AWSStorage.store (codec : Codec) (st : AWSStorage) (be : Backend) (key : String)
    (res : ResponseData) : OpOut Unit :=
  if st.readOnly then ⟨Except.error (OpErr.readOnly st.bucket), st, be, []⟩
  else AWSStorage.storeAfterInit codec (AWSStorage.initOp st be) key res

/-- The body of `copy` after the `await this._init()` line. -/
def AWSStorage.copyAfterInit (i : OpOut Unit) (src dest : String) : OpOut Unit :=
  match i.result with
  | Except.error e => ⟨Except.error e, i.client, i.backend, i.events⟩
  | Except.ok _ =>
    match i.backend.sendCopyObject src dest with
    | Except.ok be2 =>
      ⟨Except.ok (), i.client, be2, i.events ++ [S3Event.copyObject src dest]⟩
    | Except.error e =>
      if e.code ≠ some "NoSuchKey" then
        ⟨Except.error (OpErr.backend e), i.client, i.backend,
          i.events ++ [S3Event.copyObject src dest]⟩
      else
        ⟨Except.error (OpErr.srcNotFound src), i.client, i.backend,
          i.events ++ [S3Event.copyObject src dest]⟩

/-- `copy` (storage.js 290-316): read-only guard, lazy init,
`CopyObjectCommand`; a `NoSuchKey` failure is turned into a
`source does not exist` error with `status = 404`, everything else is
rethrown unchanged. -/
def AWSStorage.copy (st : AWSStorage) (be : Backend) (src dest : String) : OpOut Unit :=
  if st.readOnly then ⟨Except.error (OpErr.readOnly st.bucket), st, be, []⟩
  else AWSStorage.copyAfterInit (AWSStorage.initOp st be) src dest

/-! ## escapeTagValue (src/utils.js of the final revision, lines 97-108)

The two `value.match` regular expressions are unanchored; we embed them
as explicit substring searches.  In `/https:\/\/drive.google.com/` the
two dots around `google` are unescaped and match any character. -/

/-- Whether `pat` is an initial segment of `s`. -/
def listPre : List Char → List Char → Bool
  | [], _ => true
  | _ :: _, [] => false
  | c :: cs, d :: ds => c = d && listPre cs ds

/-- Whether `pat` occurs in `s` starting at position `i`. -/
def subAt (pat s : List Char) (i : Nat) : Bool :=
  listPre pat (s.drop i)

/-- The test `value.match(/https:\/\/.*\.sharepoint\.com/)`. -/
def matchesSharepoint (value : String) : Bool :=
  let cs := value.data
  (List.range (cs.length + 1)).any (fun i =>
    subAt "https://".data cs i &&
    (List.range (cs.length + 1)).any (fun j =>
      decide (i + 8 ≤ j) && subAt ".sharepoint.com".data cs j))

/-- The test `value.match(/https:\/\/drive.google.com/)`: the literal
`https://drive`, any character, `google`, any character, `com`. -/
def matchesGoogle (value : String) : Bool :=
  let cs := value.data
  (List.range (cs.length + 1)).any (fun i =>
    subAt "https://drive".data cs i &&
    subAt "google".data cs (i + 14) &&
    subAt "com".data cs (i + 21))

/-- Value of an ASCII hex digit. -/
def hexDigit (c : Char) : Option Nat :=
  let n := c.toNat
  if 48 ≤ n ∧ n ≤ 57 then some (n - 48)
  else if 65 ≤ n ∧ n ≤ 70 then some (n - 55)
  else if 97 ≤ n ∧ n ≤ 102 then some (n - 87)
  else none

/-- Code points whose escapes `decodeURI` leaves intact
(`# $ & + , / : ; = ? @`). -/
def isURIReservedCode (n : Nat) : Bool :=
  n = 35 || n = 36 || n = 38 || n = 43 || n = 44 || n = 47 ||
  n = 58 || n = 59 || n = 61 || n = 63 || n = 64

/-- Modelled from the JavaScript builtin `decodeURI` for single-byte
percent escapes: decode `%XX` except for reserved characters; malformed
or multi-byte sequences are left as they are (the embedded theorems
never evaluate this branch on such inputs). -/
def decodeURIChars : List Char → List Char
  | [] => []
  | '%' :: h1 :: h2 :: rest =>
    (match hexDigit h1, hexDigit h2 with
     | some a, some b =>
       let n := 16 * a + b
       if isURIReservedCode n then '%' :: h1 :: h2 :: decodeURIChars rest
       else Char.ofNat n :: decodeURIChars rest
     | _, _ => '%' :: decodeURIChars (h1 :: h2 :: rest))
  | c :: rest => c :: decodeURIChars rest

/-- The JavaScript builtin `decodeURI`, on our character model. -/
def decodeURI (value : String) : String :=
  String.mk (decodeURIChars value.data)

/-- The character class `[A-Za-z0-9 +-=._:/@]` exactly as the regex
engine reads it: inside a class, `+-=` is the code point RANGE from
`+` (43) to `=` (61), not the three characters. -/
def allowedByRegexClass (c : Char) : Bool :=
  let n := c.toNat
  (65 ≤ n && n ≤ 90) || (97 ≤ n && n ≤ 122) || (48 ≤ n && n ≤ 57) ||
  n = 32 || (43 ≤ n && n ≤ 61) || n = 46 || n = 95 || n = 58 || n = 47 || n = 64

/-- `escapeTagValue(value)`: decode sharepoint URLs, truncate Google
Drive URLs at their query string, and otherwise replace every character
outside the class `[A-Za-z0-9 +-=._:/@]` by an underscore. -/
def escapeTagValue (value : String) : String :=
  if matchesSharepoint value then decodeURI value
  else if matchesGoogle value then
    match value.data.findIdx? (fun c => c = '?') with
    | some q => String.mk (value.data.take q)
    | none => String.mk (value.data.take value.data.length)
  else
    String.mk (value.data.map (fun c => if allowedByRegexClass c then c else '_'))

/-! ## The request handler (src/index.js of the final revision)

`main` is embedded as a function of the request parameters and a world
record supplying the behaviour of the external collaborators (the two
S3 backends, the fstab mount table, the sha256 digest, and the
content-proxy response).  The model returns the response status and
message together with the trace of I/O actions performed, in program
order. -/

/-- `parseBoolean` (index.js 45-50). -/
def parseBoolean (value : Val) (defaultValue : Bool) : Bool :=
  match value with
  | Val.str s => if s = "false" then false else (if truthy (Val.str s) then true else defaultValue)
  | Val.bool b => if b = false then false else true
  | v => if truthy v then true else defaultValue

/-- Truthiness of an optional request parameter (missing or the empty
string are falsy). -/
def truthyParam : Option String → Bool
  | none => false
  | some s => !s.isEmpty

structure MainParams : Type where
  owner : Option String
  repo : Option String
  ref : Option String
  path : Option String
  pfx : Option String
  useLastModified : Val

structure MainWorld : Type where
  codec : Codec
  codeBackend : Backend
  contentBackend : Backend
  fstabMatch : String → Option String
  hashHex : String → String
  timeoutExternal : Option Nat
  requestId : String
  token : Val
  proxyOk : Bool
  proxyStatus : Nat
  proxyBody : List Nat
  proxyHeaders : List (String × String)

/-- The externally visible I/O actions of one handler invocation. -/
inductive MainEvent : Type where
  | constructStorage (bucket : String) : MainEvent
  | s3 (ev : S3Event) : MainEvent
  | closeStorage : MainEvent
  | fetchContent (opts : List (String × Val)) : MainEvent

structure MainOut : Type where
  status : Nat
  message : String
  events : List MainEvent

/-- The tail of `main` (index.js 155-188): build the fetch options,
invoke content-proxy (recorded as a fetch event carrying the options it
sends), pass non-ok responses through, and otherwise store the result;
the `finally` block closes the content storage client. -/
def mainFetchStore (w : MainWorld) (options : List (String × Val)) (st : AWSStorage)
    (be : Backend) (key : String) (evs : List MainEvent) : MainOut :=
  match getFetchOptions options with
  | Except.error _ => ⟨500, "TypeError", evs ++ [MainEvent.closeStorage]⟩
  | Except.ok fo =>
    let evs2 := evs ++ [MainEvent.fetchContent fo]
    if w.proxyOk then
      let so := AWSStorage.store w.codec st be key ⟨w.proxyBody, w.proxyHeaders⟩
      let evs3 := evs2 ++ so.events.map MainEvent.s3 ++ [MainEvent.closeStorage]
      match so.result with
      | Except.error e => ⟨(OpErr.statusOf e).getD 500, "store failed", evs3⟩
      | Except.ok _ => ⟨200, "", evs3⟩
    else ⟨w.proxyStatus, "proxy error", evs2 ++ [MainEvent.closeStorage]⟩

/-- `main` (index.js 59-189): validate the parameters, load and match
the fstab from the read-only code bus, derive the content bucket from
the mount URL digest, optionally read the stored metadata to prime the
conditional fetch, then fetch and store. -/
def mainModel (p : MainParams) (w : MainWorld) : MainOut :=
  let useLastModified := parseBoolean p.useLastModified false
  if truthyParam p.owner && truthyParam p.repo && truthyParam p.ref &&
      truthyParam p.path then
    let owner := p.owner.getD ""
    let repo := p.repo.getD ""
    let ref := p.ref.getD ""
    let path := p.path.getD ""
    let pfxVal := p.pfx.getD "live"
    let codeStorage : AWSStorage := ⟨"helix-code-bus", true, false⟩
    let lo := AWSStorage.load w.codec codeStorage w.codeBackend
      (owner ++ "/" ++ repo ++ "/" ++ ref ++ "/fstab.yaml")
    let evs0 := MainEvent.constructStorage "helix-code-bus" ::
      (lo.events.map MainEvent.s3 ++ [MainEvent.closeStorage])
    match lo.result with
    | Except.error _ => ⟨500, "fstab load failed", evs0⟩
    | Except.ok none =>
      ⟨400, owner ++ "/" ++ repo ++ "/" ++ ref ++
        "/fstab.yaml not found in bucket helix-code-bus", evs0⟩
    | Except.ok (some _buffer) =>
      match w.fstabMatch path with
      | none => ⟨400, "path specified is not mounted in fstab.yaml: " ++ path, evs0⟩
      | some mpUrl =>
        let options : List (String × Val) :=
          [("cache", Val.str "no-store"),
            ("fetchTimeout", Val.num (w.timeoutExternal.getD 20000)),
            ("requestId", Val.str w.requestId),
            ("token", w.token)]
        let bucket := "h3" ++ String.mk ((w.hashHex mpUrl).data.take 59)
        let key := pfxVal ++ path
        let contentStorage : AWSStorage := ⟨bucket, false, false⟩
        let evs1 := evs0 ++ [MainEvent.constructStorage bucket]
        if useLastModified then
          let m := AWSStorage.metadataOp contentStorage w.contentBackend key
          let evs2 := evs1 ++ m.events.map MainEvent.s3
          match m.result with
          | Except.error e =>
            ⟨(OpErr.statusOf e).getD 500, "metadata failed",
              evs2 ++ [MainEvent.closeStorage]⟩
          | Except.ok mm =>
            let options2 :=
              match mm with
              | some meta =>
                objSet options "lastModified"
                  (match getAssoc meta "last-modified" with
                   | some lm => Val.str lm
                   | none => Val.undef)
              | none => options
            mainFetchStore w options2 m.client m.backend key evs2
        else
          mainFetchStore w options contentStorage w.contentBackend key evs1
  else ⟨400, "owner, repo, ref, and path parameters are required", []⟩

/-! ## Association-list lemmas for the JavaScript object model -/

theorem objGet_objUpd_self (o : List (String × Val)) (k : String) (v : Val)
    (h : objHasKey o k = true) : objGet (objUpd o k v) k = v := by
  induction o with
  | nil => simp [objHasKey] at h
  | cons p rest ih =>
    by_cases hp : p.1 = k
    · simp [objUpd, objGet, hp]
    · have hrest : objHasKey rest k = true := by
        simp only [objHasKey, List.any_cons, Bool.or_eq_true, decide_eq_true_eq] at h
        rcases h with h | h
        · exact absurd h hp
        · exact h
      simp [objUpd, objGet, hp, ih hrest]

theorem objGet_objUpd_ne (o : List (String × Val)) (k k2 : String) (v : Val)
    (h : k2 ≠ k) : objGet (objUpd o k v) k2 = objGet o k2 := by
  induction o with
  | nil => rfl
  | cons p rest ih =>
    by_cases hp : p.1 = k
    · simp [objUpd, objGet, hp, Ne.symm h, ih]
    · simp only [objUpd, hp, if_false]
      by_cases hp2 : p.1 = k2
      · simp [objGet, hp2]
      · simp [objGet, hp2, ih]

theorem objGet_append_of_not_has (o : List (String × Val)) (k : String) (v : Val)
    (h : objHasKey o k = false) : objGet (o ++ [(k, v)]) k = v := by
  induction o with
  | nil => simp [objGet]
  | cons p rest ih =>
    simp only [objHasKey, List.any_cons, Bool.or_eq_false_iff, decide_eq_false_iff_not] at h
    simp only [List.cons_append, objGet, if_neg h.1]
    exact ih (by simpa [objHasKey] using h.2)

theorem objGet_append_ne (o : List (String × Val)) (k k2 : String) (v : Val)
    (h : k2 ≠ k) : objGet (o ++ [(k, v)]) k2 = objGet o k2 := by
  induction o with
  | nil => simp [objGet, Ne.symm h, h]
  | cons p rest ih =>
    by_cases hp : p.1 = k2
    · simp [objGet, hp]
    · simp [objGet, hp, ih]

theorem objGet_objSet_self (o : List (String × Val)) (k : String) (v : Val) :
    objGet (objSet o k v) k = v := by
  unfold objSet
  by_cases h : objHasKey o k = true
  · simp only [h, if_true]
    exact objGet_objUpd_self o k v h
  · simp only [h, if_false]
    exact objGet_append_of_not_has o k v (by simpa using h)

theorem objGet_objSet_ne (o : List (String × Val)) (k k2 : String) (v : Val)
    (h : k2 ≠ k) : objGet (objSet o k v) k2 = objGet o k2 := by
  unfold objSet
  by_cases hh : objHasKey o k = true
  · simp only [hh, if_true]
    exact objGet_objUpd_ne o k k2 v h
  · simp only [hh, if_false]
    exact objGet_append_ne o k k2 v h

theorem objDel_cons_eq (p : String × Val) (rest : List (String × Val)) (k : String)
    (hp : p.1 = k) : objDel (p :: rest) k = objDel rest k := by
  simp [objDel, List.filter_cons, hp]

theorem objDel_cons_ne (p : String × Val) (rest : List (String × Val)) (k : String)
    (hp : ¬ p.1 = k) : objDel (p :: rest) k = p :: objDel rest k := by
  simp [objDel, List.filter_cons, hp]

theorem objGet_objDel_ne (o : List (String × Val)) (k k2 : String)
    (h : k2 ≠ k) : objGet (objDel o k) k2 = objGet o k2 := by
  induction o with
  | nil => rfl
  | cons p rest ih =>
    by_cases hp : p.1 = k
    · rw [objDel_cons_eq p rest k hp]
      have hp2 : ¬ p.1 = k2 := by
        rw [hp]
        exact fun hk => h hk.symm
      simp [objGet, hp2, ih]
    · rw [objDel_cons_ne p rest k hp]
      by_cases hp2 : p.1 = k2
      · simp [objGet, hp2]
      · simp [objGet, hp2, ih]

theorem objKeys_objUpd_sub (o : List (String × Val)) (k k2 : String) (v : Val)
    (h : k2 ∈ objKeys (objUpd o k v)) : k2 = k ∨ k2 ∈ objKeys o := by
  induction o with
  | nil => simp [objUpd, objKeys] at h
  | cons p rest ih =>
    simp only [objUpd, objKeys, List.map_cons, List.mem_cons] at h
    rcases h with h | h
    · by_cases hp : p.1 = k
      · simp only [hp, if_true] at h
        exact Or.inl h
      · simp only [hp, if_false] at h
        exact Or.inr (by simp [objKeys, h])
    · rcases ih h with h2 | h2
      · exact Or.inl h2
      · exact Or.inr (by simp [objKeys] at h2 ⊢; exact Or.inr h2)

theorem objKeys_objSet_sub (o : List (String × Val)) (k k2 : String) (v : Val)
    (h : k2 ∈ objKeys (objSet o k v)) : k2 = k ∨ k2 ∈ objKeys o := by
  unfold objSet at h
  by_cases hh : objHasKey o k = true
  · rw [if_pos hh] at h
    exact objKeys_objUpd_sub o k k2 v h
  · rw [if_neg hh] at h
    simp only [objKeys, List.map_append, List.mem_append, List.map_cons] at h
    rcases h with h | h
    · exact Or.inr (by simpa [objKeys] using h)
    · simp at h
      exact Or.inl h

theorem objKeys_objDel_sub (o : List (String × Val)) (k k2 : String)
    (h : k2 ∈ objKeys (objDel o k)) : k2 ∈ objKeys o ∧ k2 ≠ k := by
  unfold objDel objKeys at h
  rcases List.mem_map.mp h with ⟨p, hp, hpk⟩
  have hmem := List.mem_filter.mp hp
  constructor
  · exact List.mem_map.mpr ⟨p, hmem.1, hpk⟩
  · intro hk
    have := hmem.2
    simp only [decide_eq_true_eq] at this
    exact this (hpk ▸ hk)

theorem objKeys_envScrub_sub (ks : List String) (o : List (String × Val)) (k2 : String)
    (h : k2 ∈ objKeys (envScrub o ks)) : k2 ∈ objKeys o := by
  induction ks generalizing o with
  | nil => simpa [envScrub] using h
  | cons k rest ih =>
    simp only [envScrub, List.foldl_cons] at h
    by_cases he : isEnvKey k = true
    · simp only [he, if_true] at h
      have := ih (objDel o k) (by simpa [envScrub] using h)
      exact (objKeys_objDel_sub o k k2 this).1
    · simp only [he, if_false] at h
      exact ih o (by simpa [envScrub] using h)

theorem objKeys_envScrub_env (ks : List String) (k2 : String)
    (henv : isEnvKey k2 = true) :
    ∀ o : List (String × Val), k2 ∈ ks → k2 ∉ objKeys (envScrub o ks) := by
  induction ks with
  | nil =>
    intro o hmem
    simp at hmem
  | cons k rest ih =>
    intro o hmem
    simp only [envScrub, List.foldl_cons]
    rcases List.mem_cons.mp hmem with hk | hk
    · subst hk
      rw [if_pos henv]
      intro hcontra
      have hsub : k2 ∈ objKeys (objDel o k2) :=
        objKeys_envScrub_sub rest (objDel o k2) k2 (by simpa [envScrub] using hcontra)
      exact (objKeys_objDel_sub o k2 k2 hsub).2 rfl
    · by_cases he : isEnvKey k = true
      · rw [if_pos he]
        intro hcontra
        exact ih (objDel o k) hk (by simpa [envScrub] using hcontra)
      · rw [if_neg he]
        intro hcontra
        exact ih o hk (by simpa [envScrub] using hcontra)

theorem objGet_envScrub (ks : List String) (o : List (String × Val)) (k2 : String)
    (h : isEnvKey k2 = false) : objGet (envScrub o ks) k2 = objGet o k2 := by
  induction ks generalizing o with
  | nil => simp [envScrub]
  | cons k rest ih =>
    simp only [envScrub, List.foldl_cons]
    by_cases he : isEnvKey k = true
    · simp only [he, if_true]
      have hne : k2 ≠ k := by
        intro hk
        rw [hk] at h
        rw [h] at he
        exact Bool.false_ne_true he
      calc objGet (envScrub (objDel o k) rest) k2
          = objGet (objDel o k) k2 := by simpa [envScrub] using ih (objDel o k)
        _ = objGet o k2 := objGet_objDel_ne o k k2 hne
    · simp only [he, if_false]
      simpa [envScrub] using ih o

/-! ## Header tracking through getFetchOptions -/

theorem setHeader_ok_shape (o o2 : List (String × Val)) (n : String) (v : Val)
    (h : setHeader o n v = Except.ok o2) :
    ∃ hm, objGet o "headers" = Val.obj hm ∧
      o2 = objSet o "headers" (Val.obj (objSet hm n v)) := by
  unfold setHeader at h
  rcases hh : objGet o "headers" with _ | s | nn | b | hm <;> rw [hh] at h <;> simp at h
  exact ⟨hm, rfl, h.symm⟩

theorem headerVal_setHeader_self (o o2 : List (String × Val)) (n : String) (v : Val)
    (h : setHeader o n v = Except.ok o2) : headerVal o2 n = some v := by
  rcases setHeader_ok_shape o o2 n v h with ⟨hm, _hget, rfl⟩
  simp [headerVal, objGet_objSet_self]

theorem headerVal_setHeader_ne (o o2 : List (String × Val)) (n m : String) (v : Val)
    (h : setHeader o m v = Except.ok o2) (hne : n ≠ m) :
    headerVal o2 n = headerVal o n := by
  rcases setHeader_ok_shape o o2 m v h with ⟨hm, hget, rfl⟩
  simp [headerVal, objGet_objSet_self, hget, objGet_objSet_ne _ _ _ _ hne]

theorem headerVal_objSet_ne (o : List (String × Val)) (k n : String) (v : Val)
    (hk : k ≠ "headers") : headerVal (objSet o k v) n = headerVal o n := by
  unfold headerVal
  rw [objGet_objSet_ne _ _ _ _ (fun hh => hk hh.symm)]

theorem headerVal_objDel_ne (o : List (String × Val)) (k n : String)
    (hk : k ≠ "headers") : headerVal (objDel o k) n = headerVal o n := by
  unfold headerVal
  rw [objGet_objDel_ne _ _ _ (fun hh => hk hh.symm)]

theorem headerVal_envScrub (ks : List String) (o : List (String × Val)) (n : String) :
    headerVal (envScrub o ks) n = headerVal o n := by
  unfold headerVal
  rw [objGet_envScrub ks o "headers" (by decide)]

theorem objGet_objSpread_notin (ext : List (String × Val)) (base : List (String × Val))
    (k : String) (h : k ∉ objKeys ext) :
    objGet (objSpread base ext) k = objGet base k := by
  induction ext generalizing base with
  | nil => rfl
  | cons p rest ih =>
    simp only [objKeys, List.map_cons, List.mem_cons, not_or] at h
    simp only [objSpread, List.foldl_cons]
    calc objGet (objSpread (objSet base p.1 p.2) rest) k
        = objGet (objSet base p.1 p.2) k := by simpa [objSpread] using ih (objSet base p.1 p.2) (by simpa [objKeys] using h.2)
      _ = objGet base k := objGet_objSet_ne _ _ _ _ h.1

theorem objGet_objSpread (ext : List (String × Val)) (base : List (String × Val))
    (k : String) (hnd : (objKeys ext).Nodup) (hbase : objGet base k = Val.undef) :
    objGet (objSpread base ext) k = objGet ext k := by
  induction ext generalizing base with
  | nil => simpa [objSpread, objGet] using hbase
  | cons p rest ih =>
    simp only [objKeys, List.map_cons, List.nodup_cons] at hnd
    simp only [objSpread, List.foldl_cons]
    by_cases hp : p.1 = k
    · subst hp
      have h1 : objGet (objSpread (objSet base p.1 p.2) rest) p.1
          = objGet (objSet base p.1 p.2) p.1 :=
        objGet_objSpread_notin rest (objSet base p.1 p.2) p.1 (by simpa [objKeys] using hnd.1)
      simp only [objSpread] at h1
      rw [h1, objGet_objSet_self]
      simp [objGet]
    · have hbase2 : objGet (objSet base p.1 p.2) k = Val.undef := by
        rw [objGet_objSet_ne _ _ _ _ (fun hh => hp hh.symm)]
        exact hbase
      have := ih (objSet base p.1 p.2) hnd.2 hbase2
      simp only [objSpread] at this
      rw [this]
      simp [objGet, hp]

/-! ## The tail of getFetchOptions -/

theorem gfoStep5_ok_shape (fo4 fo5 : List (String × Val))
    (h : gfoStep5 fo4 = Except.ok fo5) :
    fo5 = fo4 ∨ ∃ hm, fo5 = objSet fo4 "headers"
      (Val.obj (objSet hm "x-github-token" (objGet fo4 "token"))) := by
  unfold gfoStep5 at h
  by_cases ht : truthy (objGet fo4 "token") = true
  · rw [if_pos ht] at h
    rcases setHeader_ok_shape _ _ _ _ h with ⟨hm, _hget, rfl⟩
    exact Or.inr ⟨hm, rfl⟩
  · rw [if_neg ht] at h
    simp only [Except.ok.injEq] at h
    exact Or.inl h.symm

theorem gfoTail_keys (fo3 out : List (String × Val)) (h : gfoTail fo3 = Except.ok out) :
    ∀ k, k ∈ objKeys out → isEnvKey k = false ∧ k ≠ "requestId" ∧ k ≠ "token" := by
  unfold gfoTail at h
  intro k hk
  rcases hstep : gfoStep5 (objDel fo3 "requestId") with e | fo5
  · rw [hstep] at h
    exact absurd h (by simp)
  · rw [hstep] at h
    simp only [Except.ok.injEq] at h
    subst h
    have hk6 : k ∈ objKeys (objDel fo5 "token") :=
      objKeys_envScrub_sub (objKeys (objDel fo5 "token")) (objDel fo5 "token") k hk
    have hkTok := objKeys_objDel_sub fo5 "token" k hk6
    have hkReq : k ≠ "requestId" := by
      have hk5 := hkTok.1
      have hmem4 : k = "headers" ∨ k ∈ objKeys (objDel fo3 "requestId") := by
        rcases gfoStep5_ok_shape _ _ hstep with rfl | ⟨hm, rfl⟩
        · exact Or.inr hk5
        · rcases objKeys_objSet_sub _ _ _ _ hk5 with h1 | h1
          · exact Or.inl h1
          · exact Or.inr h1
      rcases hmem4 with h1 | h1
      · subst h1
        decide
      · exact (objKeys_objDel_sub fo3 "requestId" k h1).2
    refine ⟨?_, hkReq, hkTok.2⟩
    by_cases he : isEnvKey k = true
    · exact absurd hk
        (objKeys_envScrub_env (objKeys (objDel fo5 "token")) k he (objDel fo5 "token") hk6)
    · simpa using he

theorem gfoTail_headerVal_ne (fo3 out : List (String × Val)) (n : String) (v : Val)
    (h : gfoTail fo3 = Except.ok out) (hn : n ≠ "x-github-token")
    (hv : headerVal fo3 n = some v) : headerVal out n = some v := by
  unfold gfoTail at h
  rcases hstep : gfoStep5 (objDel fo3 "requestId") with e | fo5
  · rw [hstep] at h
    exact absurd h (by simp)
  · rw [hstep] at h
    simp only [Except.ok.injEq] at h
    subst h
    have h4 : headerVal (objDel fo3 "requestId") n = some v := by
      rw [headerVal_objDel_ne fo3 "requestId" n (by decide)]
      exact hv
    have h5 : headerVal fo5 n = some v := by
      unfold gfoStep5 at hstep
      by_cases ht : truthy (objGet (objDel fo3 "requestId") "token") = true
      · rw [if_pos ht] at hstep
        rw [headerVal_setHeader_ne _ _ _ _ _ hstep hn]
        exact h4
      · rw [if_neg ht] at hstep
        simp only [Except.ok.injEq] at hstep
        subst hstep
        exact h4
    rw [headerVal_envScrub, headerVal_objDel_ne fo5 "token" n (by decide)]
    exact h5

theorem gfoTail_token (fo3 out : List (String × Val))
    (h : gfoTail fo3 = Except.ok out)
    (ht : truthy (objGet fo3 "token") = true) :
    headerVal out "x-github-token" = some (objGet fo3 "token") := by
  unfold gfoTail at h
  have htok4 : objGet (objDel fo3 "requestId") "token" = objGet fo3 "token" :=
    objGet_objDel_ne fo3 "requestId" "token" (by decide)
  have ht4 : truthy (objGet (objDel fo3 "requestId") "token") = true := by
    rw [htok4]
    exact ht
  rcases hstep : gfoStep5 (objDel fo3 "requestId") with e | fo5
  · rw [hstep] at h
    exact absurd h (by simp)
  · rw [hstep] at h
    simp only [Except.ok.injEq] at h
    subst h
    unfold gfoStep5 at hstep
    rw [if_pos ht4] at hstep
    have h5 : headerVal fo5 "x-github-token" = some (objGet fo3 "token") := by
      rw [headerVal_setHeader_self _ _ _ _ hstep, htok4]
    rw [headerVal_envScrub, headerVal_objDel_ne fo5 "token" "x-github-token" (by decide)]
    exact h5

/-- C10: the fetch options returned by `getFetchOptions` never carry an
environment-style (all-uppercase) key nor the `requestId`/`token`
properties; a truthy request id surfaces only as the `x-request-id`
header and a truthy token only as the `x-github-token` header. -/
theorem getFetchOptions_no_secrets (options out : List (String × Val))
    (hnd : (objKeys options).Nodup)
    (h : getFetchOptions options = Except.ok out) :
    (∀ k, k ∈ objKeys out → isEnvKey k = false ∧ k ≠ "requestId" ∧ k ≠ "token") ∧
    (truthy (objGet options "requestId") = true →
      headerVal out "x-request-id" = some (objGet options "requestId")) ∧
    (truthy (objGet options "token") = true →
      headerVal out "x-github-token" = some (objGet options "token")) := by
  unfold getFetchOptions at h
  rcases h1 : gfoStep1 options (objSpread [("headers", Val.obj [])] options) with e | fo1
  · rw [h1] at h
    exact absurd h (by simp)
  · rw [h1] at h
    dsimp only at h
    rcases h3 : gfoStep3 options (gfoSignal options fo1) with e | fo3
    · rw [h3] at h
      exact absurd h (by simp)
    · rw [h3] at h
      dsimp only at h
      refine ⟨gfoTail_keys fo3 out h, ?_, ?_⟩
      · intro hrid
        unfold gfoStep1 at h1
        rw [if_pos hrid] at h1
        have hv1 : headerVal fo1 "x-request-id" = some (objGet options "requestId") :=
          headerVal_setHeader_self _ _ _ _ h1
        have hv2 : headerVal (gfoSignal options fo1) "x-request-id"
            = some (objGet options "requestId") := by
          unfold gfoSignal
          by_cases hc : truthy (objGet options "fetchTimeout") = true
          · rw [if_pos hc, headerVal_objSet_ne _ _ _ _ (by decide)]
            exact hv1
          · rw [if_neg hc]
            exact hv1
        have hv3 : headerVal fo3 "x-request-id" = some (objGet options "requestId") := by
          unfold gfoStep3 at h3
          by_cases hc : truthy (objGet options "lastModified") = true
          · rw [if_pos hc] at h3
            rw [headerVal_setHeader_ne _ _ _ _ _ h3 (by decide)]
            exact hv2
          · rw [if_neg hc] at h3
            simp only [Except.ok.injEq] at h3
            subst h3
            exact hv2
        exact gfoTail_headerVal_ne fo3 out _ _ h (by decide) hv3
      · intro htok
        have e0 : objGet (objSpread [("headers", Val.obj [])] options) "token"
            = objGet options "token" :=
          objGet_objSpread options _ "token" hnd rfl
        have e1 : objGet fo1 "token" = objGet options "token" := by
          unfold gfoStep1 at h1
          by_cases hc : truthy (objGet options "requestId") = true
          · rw [if_pos hc] at h1
            rcases setHeader_ok_shape _ _ _ _ h1 with ⟨hm, _hget, rfl⟩
            rw [objGet_objSet_ne _ _ _ _ (by decide)]
            exact e0
          · rw [if_neg hc] at h1
            simp only [Except.ok.injEq] at h1
            subst h1
            exact e0
        have e2 : objGet (gfoSignal options fo1) "token" = objGet options "token" := by
          unfold gfoSignal
          by_cases hc : truthy (objGet options "fetchTimeout") = true
          · rw [if_pos hc, objGet_objSet_ne _ _ _ _ (by decide)]
            exact e1
          · rw [if_neg hc]
            exact e1
        have e3 : objGet fo3 "token" = objGet options "token" := by
          unfold gfoStep3 at h3
          by_cases hc : truthy (objGet options "lastModified") = true
          · rw [if_pos hc] at h3
            rcases setHeader_ok_shape _ _ _ _ h3 with ⟨hm, _hget, rfl⟩
            rw [objGet_objSet_ne _ _ _ _ (by decide)]
            exact e2
          · rw [if_neg hc] at h3
            simp only [Except.ok.injEq] at h3
            subst h3
            exact e2
        have hfin := gfoTail_token fo3 out h (by rw [e3]; exact htok)
        rw [e3] at hfin
        exact hfin

/-- Concrete options for the C10 witness: an environment secret, a
request id and a token, as in the repository's own utils test. -/
def c10Opts : List (String × Val) :=
  [("cache", Val.str "no-store"), ("SUPER_SECRET", Val.str "foo"),
    ("fetchTimeout", Val.num 1000), ("requestId", Val.str "1234"),
    ("token", Val.str "tok")]

/-- The fetch options computed for `c10Opts`. -/
def c10Out : List (String × Val) :=
  match getFetchOptions c10Opts with
  | Except.ok o => o
  | Except.error _ => []

/-- Witness for C10 at the concrete options object `c10Opts`. -/
theorem getFetchOptions_no_secrets_witness :
    headerVal c10Out "x-request-id" = some (objGet c10Opts "requestId") ∧
    headerVal c10Out "x-github-token" = some (objGet c10Opts "token") := by
  have h := getFetchOptions_no_secrets c10Opts c10Out (by decide) (by rfl)
  exact ⟨h.2.1 (by decide), h.2.2 (by decide)⟩

/-! ## Storage lemmas -/

/-- An executable codec with `decomp (comp b) = b`, standing in for the
external zlib gzip/gunzip pair in concrete witnesses. -/
def demoCodec : Codec :=
  ⟨fun l => l.length :: l, fun l => l.drop 1⟩

theorem demoCodec_inv (b : List Nat) : demoCodec.decomp (demoCodec.comp b) = b := rfl

theorem lookupObj_putObj_self (l : List (String × S3Object)) (k : String) (v : S3Object) :
    lookupObj (putObj l k v) k = some v := by
  simp [putObj, lookupObj]

theorem lookupObj_filter_ne (l : List (String × S3Object)) (k k2 : String) (h : k2 ≠ k) :
    lookupObj (l.filter (fun p => p.1 ≠ k)) k2 = lookupObj l k2 := by
  induction l with
  | nil => rfl
  | cons p rest ih =>
    rw [List.filter_cons]
    by_cases hp : p.1 = k
    · have hdec : ¬ ((decide (p.1 ≠ k)) = true) := by simp [hp]
      rw [if_neg hdec]
      rw [ih]
      have hp2 : ¬ p.1 = k2 := by
        rw [hp]
        exact fun hk => h hk.symm
      simp [lookupObj, hp2]
    · have hdec : (decide (p.1 ≠ k)) = true := by simp [hp]
      rw [if_pos hdec]
      by_cases hp2 : p.1 = k2
      · simp only [lookupObj, if_pos hp2]
      · simp only [lookupObj, if_neg hp2]
        exact ih

theorem lookupObj_putObj_ne (l : List (String × S3Object)) (k k2 : String) (v : S3Object)
    (h : k2 ≠ k) : lookupObj (putObj l k v) k2 = lookupObj l k2 := by
  unfold putObj
  have hhead : ¬ (k = k2) := fun hk => h hk.symm
  rw [lookupObj, if_neg hhead]
  exact lookupObj_filter_ne l k k2 h

theorem initOp_of_initDone (st : AWSStorage) (be : Backend) (h : st.initDone = true) :
    AWSStorage.initOp st be = ⟨Except.ok (), st, be, []⟩ := by
  unfold AWSStorage.initOp
  rw [if_pos h]

theorem initOp_ok_initDone (st : AWSStorage) (be : Backend)
    (hok : (AWSStorage.initOp st be).result = Except.ok ()) :
    (AWSStorage.initOp st be).client.initDone = true := by
  unfold AWSStorage.initOp at hok ⊢
  by_cases h0 : st.initDone = true
  · rw [if_pos h0]
    exact h0
  · rw [if_neg h0] at hok ⊢
    by_cases h1 : st.readOnly = true
    · rw [if_pos h1]
    · rw [if_neg h1] at hok ⊢
      rcases hbe : AWSStorage.bucketExistsQ be with ⟨r, evs⟩
      rw [hbe] at hok
      rcases r with e | b
      · simp at hok
      · rcases b with _ | _
        · rcases hbc : AWSStorage.bucketCreate be with ⟨rc, evs2⟩
          rw [hbc] at hok
          rcases rc with e | be1
          · simp at hok
          · rfl
        · rfl

theorem sendPutObject_ok (be : Backend) (key : String) (obj : S3Object) (be2 : Backend)
    (h : be.sendPutObject key obj = Except.ok be2) :
    be.fault = none ∧ be.bucketExists = true ∧
      be2 = { be with objects := putObj be.objects key obj } := by
  unfold Backend.sendPutObject at h
  rcases hf : be.fault with _ | e
  · rw [hf] at h
    dsimp only at h
    by_cases hb : be.bucketExists = true
    · rw [if_pos hb] at h
      simp only [Except.ok.injEq] at h
      exact ⟨rfl, hb, h.symm⟩
    · rw [if_neg hb] at h
      simp at h
  · rw [hf] at h
    simp at h

theorem foldl_applyHeader_body (hs : List (String × String)) (input : PutInput) :
    (hs.foldl (fun acc p => applyHeader acc p.1 p.2) input).body = input.body := by
  induction hs generalizing input with
  | nil => rfl
  | cons p rest ih =>
    rw [List.foldl_cons, ih]
    unfold applyHeader
    split <;> rfl

theorem foldl_applyHeader_enc (hs : List (String × String)) (input : PutInput) :
    (hs.foldl (fun acc p => applyHeader acc p.1 p.2) input).contentEncoding
      = input.contentEncoding := by
  induction hs generalizing input with
  | nil => rfl
  | cons p rest ih =>
    rw [List.foldl_cons, ih]
    unfold applyHeader
    split <;> rfl

theorem storeInput_body (codec : Codec) (key : String) (res : ResponseData) :
    (storeInput codec key res).body = codec.comp res.body := by
  unfold storeInput
  rw [foldl_applyHeader_body]

theorem storeInput_enc (codec : Codec) (key : String) (res : ResponseData) :
    (storeInput codec key res).contentEncoding = some "gzip" := by
  unfold storeInput
  rw [foldl_applyHeader_enc]

/-- C1: on a non-read-only client, a successful `store(key, res)`
followed by `load(key)` on the resulting states returns exactly the
original body bytes: store gzips and records `ContentEncoding: gzip`,
and load decompresses whenever that flag equals `gzip`, so callers never
observe compressed bytes.  The codec hypothesis is the zlib inversion
law `gunzip (gzip b) = b`. -/
theorem store_load_roundtrip (codec : Codec) (st : AWSStorage) (be : Backend)
    (key : String) (res : ResponseData)
    (hgz : ∀ b, codec.decomp (codec.comp b) = b)
    (hro : st.readOnly = false)
    (hok : (AWSStorage.store codec st be key res).result = Except.ok ()) :
    (AWSStorage.load codec (AWSStorage.store codec st be key res).client
      (AWSStorage.store codec st be key res).backend key).result
      = Except.ok (some res.body) := by
  have hro2 : ¬ st.readOnly = true := by simp [hro]
  unfold AWSStorage.store at hok ⊢
  rw [if_neg hro2] at hok ⊢
  unfold AWSStorage.storeAfterInit at hok ⊢
  rcases hi : (AWSStorage.initOp st be).result with e | u
  · rw [hi] at hok
    simp at hok
  · cases u
    rw [hi] at hok
    dsimp only at hok ⊢
    rcases hput : (AWSStorage.initOp st be).backend.sendPutObject key
        (objOfInput (storeInput codec key res)) with e | be2
    · rw [hput] at hok
      simp at hok
    · rw [hput] at hok
      dsimp only at hok ⊢
      obtain ⟨hf, hb, hbe2⟩ :=
        sendPutObject_ok (AWSStorage.initOp st be).backend key
          (objOfInput (storeInput codec key res)) be2 hput
      unfold AWSStorage.load
      rw [initOp_of_initDone _ be2 (initOp_ok_initDone st be hi)]
      unfold AWSStorage.loadAfterInit
      dsimp only
      have hget : be2.sendGetObject key
          = Except.ok (objOfInput (storeInput codec key res)) := by
        subst hbe2
        unfold Backend.sendGetObject
        dsimp only
        rw [hf]
        dsimp only
        rw [if_pos hb, lookupObj_putObj_self]
      rw [hget]
      dsimp only
      have henc : (objOfInput (storeInput codec key res)).contentEncoding
          = some "gzip" := storeInput_enc codec key res
      rw [if_pos henc]
      have hbody : (objOfInput (storeInput codec key res)).body
          = codec.comp res.body := storeInput_body codec key res
      rw [hbody, hgz]

/-- Witness for C1: a concrete store/load round trip through the demo
codec on a fresh bucket. -/
theorem store_load_roundtrip_witness :
    (AWSStorage.load demoCodec
      (AWSStorage.store demoCodec ⟨"bloop", false, false⟩ ⟨true, true, [], none⟩
        "live/path" ⟨[1, 2, 3], [("last-modified", "LM")]⟩).client
      (AWSStorage.store demoCodec ⟨"bloop", false, false⟩ ⟨true, true, [], none⟩
        "live/path" ⟨[1, 2, 3], [("last-modified", "LM")]⟩).backend
      "live/path").result = Except.ok (some [1, 2, 3]) :=
  store_load_roundtrip demoCodec ⟨"bloop", false, false⟩ ⟨true, true, [], none⟩
    "live/path" ⟨[1, 2, 3], [("last-modified", "LM")]⟩ demoCodec_inv rfl rfl

/-- C2: classification of one response header by store: the three AWS
system headers become command properties named by capitalizing each
hyphen-separated segment (content-type becomes ContentType, and so on),
last-modified goes to metadata under x-source-last-modified, and every
other header goes to metadata under its own name unchanged. -/
theorem store_header_classification (input : PutInput) (name value : String) :
    (name ∈ AWS_S3_SYSTEM_HEADERS →
      applyHeader input name value =
        { input with props := setAssoc input.props (pascalProperty name) value }) ∧
    pascalProperty "content-type" = "ContentType" ∧
    pascalProperty "cache-control" = "CacheControl" ∧
    pascalProperty "expires" = "Expires" ∧
    (name = "last-modified" →
      applyHeader input name value =
        { input with metadata := setAssoc input.metadata "x-source-last-modified" value }) ∧
    (name ∉ AWS_S3_SYSTEM_HEADERS → name ≠ "last-modified" →
      applyHeader input name value =
        { input with metadata := setAssoc input.metadata name value }) := by
  refine ⟨?_, rfl, rfl, rfl, ?_, ?_⟩
  · intro hmem
    have hc : AWS_S3_SYSTEM_HEADERS.contains name = true := by
      exact List.elem_eq_true_of_mem hmem
    unfold applyHeader classifyHeader
    rw [if_pos hc]
  · intro hname
    subst hname
    rfl
  · intro hmem hlm
    have hc : ¬ (AWS_S3_SYSTEM_HEADERS.contains name = true) := by
      intro hcon
      exact hmem (List.mem_of_elem_eq_true hcon)
    have hfind : getAssoc METADATA_HEADER_MAP name = none := by
      have h1 : ¬ ("last-modified" = name) := fun hcon => hlm hcon.symm
      simp [METADATA_HEADER_MAP, getAssoc, h1]
    unfold applyHeader classifyHeader
    rw [if_neg hc, hfind]
    rfl

/-- Witness for C2 at the header content-type and a generic other
header. -/
theorem store_header_classification_witness :
    applyHeader ⟨[], some "gzip", "k", [], []⟩ "content-type" "text/html" =
      { body := ([] : List Nat), contentEncoding := some "gzip", key := "k",
        props := [("ContentType", "text/html")], metadata := [] } ∧
    applyHeader ⟨[], some "gzip", "k", [], []⟩ "last-modified" "LM" =
      { body := ([] : List Nat), contentEncoding := some "gzip", key := "k",
        props := [], metadata := [("x-source-last-modified", "LM")] } ∧
    applyHeader ⟨[], some "gzip", "k", [], []⟩ "x-source-location" "there" =
      { body := ([] : List Nat), contentEncoding := some "gzip", key := "k",
        props := [], metadata := [("x-source-location", "there")] } := by
  refine ⟨?_, ?_, ?_⟩
  · rw [(store_header_classification ⟨[], some "gzip", "k", [], []⟩
      "content-type" "text/html").1 (by decide)]
    rfl
  · rw [(store_header_classification ⟨[], some "gzip", "k", [], []⟩
      "last-modified" "LM").2.2.2.2.1 rfl]
    rfl
  · rw [(store_header_classification ⟨[], some "gzip", "k", [], []⟩
      "x-source-location" "there").2.2.2.2.2 (by decide) (by decide)]
    rfl

/-- C3: on a read-only client both store and copy throw the read-only
error before any backend call: the states are untouched and the event
trace is empty, so no initialization and no mutation is attempted. -/
theorem readonly_blocks_mutation (codec : Codec) (st : AWSStorage) (be : Backend)
    (key : String) (res : ResponseData) (src dest : String)
    (hro : st.readOnly = true) :
    AWSStorage.store codec st be key res
      = ⟨Except.error (OpErr.readOnly st.bucket), st, be, []⟩ ∧
    AWSStorage.copy st be src dest
      = ⟨Except.error (OpErr.readOnly st.bucket), st, be, []⟩ := by
  constructor
  · unfold AWSStorage.store
    rw [if_pos hro]
  · unfold AWSStorage.copy
    rw [if_pos hro]

/-- Witness for C3 on a concrete read-only client. -/
theorem readonly_blocks_mutation_witness :
    AWSStorage.store demoCodec ⟨"bloop", true, false⟩ ⟨true, true, [], none⟩
      "live/path" ⟨[1], []⟩
      = ⟨Except.error (OpErr.readOnly "bloop"), ⟨"bloop", true, false⟩,
          ⟨true, true, [], none⟩, []⟩ ∧
    AWSStorage.copy ⟨"bloop", true, false⟩ ⟨true, true, [], none⟩
      "preview/path" "live/path"
      = ⟨Except.error (OpErr.readOnly "bloop"), ⟨"bloop", true, false⟩,
          ⟨true, true, [], none⟩, []⟩ :=
  readonly_blocks_mutation demoCodec ⟨"bloop", true, false⟩ ⟨true, true, [], none⟩
    "live/path" ⟨[1], []⟩ "preview/path" "live/path" rfl

/-- C4: copying from a missing source key fails with the fabricated
`source does not exist` error carrying `status = 404` (distinct from a
generic backend failure), the backend state is unchanged so the
destination key stays absent, and any backend copy error other than
`NoSuchKey` is rethrown unchanged. -/
theorem copy_missing_source (st : AWSStorage) (be : Backend) (src dest : String)
    (hro : st.readOnly = false) (hinit : st.initDone = true) :
    (be.fault = none → be.bucketExists = true → lookupObj be.objects src = none →
      (AWSStorage.copy st be src dest).result = Except.error (OpErr.srcNotFound src) ∧
      OpErr.statusOf (OpErr.srcNotFound src) = some 404 ∧
      (AWSStorage.copy st be src dest).backend = be ∧
      lookupObj (AWSStorage.copy st be src dest).backend.objects dest
        = lookupObj be.objects dest) ∧
    (∀ e, be.sendCopyObject src dest = Except.error e → e.code ≠ some "NoSuchKey" →
      (AWSStorage.copy st be src dest).result = Except.error (OpErr.backend e) ∧
      (AWSStorage.copy st be src dest).backend = be) := by
  have hro2 : ¬ st.readOnly = true := by simp [hro]
  have hcopy : AWSStorage.copy st be src dest
      = AWSStorage.copyAfterInit ⟨Except.ok (), st, be, []⟩ src dest := by
    unfold AWSStorage.copy
    rw [if_neg hro2, initOp_of_initDone st be hinit]
  constructor
  · intro hf hb hsrc
    have hsend : be.sendCopyObject src dest = Except.error ⟨404, some "NoSuchKey"⟩ := by
      unfold Backend.sendCopyObject
      rw [hf]
      dsimp only
      rw [if_pos hb, hsrc]
    rw [hcopy]
    unfold AWSStorage.copyAfterInit
    dsimp only
    rw [hsend]
    dsimp only
    rw [if_neg (by simp)]
    exact ⟨rfl, rfl, rfl, rfl⟩
  · intro e hsend hcode
    rw [hcopy]
    unfold AWSStorage.copyAfterInit
    dsimp only
    rw [hsend]
    dsimp only
    rw [if_pos hcode]
    exact ⟨rfl, rfl⟩

/-- Witness for C4 on a concrete bucket without the source key and with
an injected 403 backend fault for the rethrow conjunct. -/
theorem copy_missing_source_witness :
    (AWSStorage.copy ⟨"bloop", false, true⟩ ⟨true, true, [], none⟩
      "preview/path" "live/path").result
      = Except.error (OpErr.srcNotFound "preview/path") ∧
    (AWSStorage.copy ⟨"bloop", false, true⟩
      ⟨true, true, [], some ⟨403, none⟩⟩ "preview/path" "live/path").result
      = Except.error (OpErr.backend ⟨403, none⟩) := by
  constructor
  · exact ((copy_missing_source ⟨"bloop", false, true⟩ ⟨true, true, [], none⟩
      "preview/path" "live/path" rfl rfl).1 rfl rfl rfl).1
  · exact ((copy_missing_source ⟨"bloop", false, true⟩
      ⟨true, true, [], some ⟨403, none⟩⟩ "preview/path" "live/path" rfl rfl).2
      ⟨403, none⟩ rfl (by decide)).1

/-- Number of `CreateBucketCommand` calls in an event trace. -/
def countCreate (evs : List S3Event) : Nat :=
  evs.countP (fun ev => ev = S3Event.createBucket)

theorem countCreate_append (l1 l2 : List S3Event) :
    countCreate (l1 ++ l2) = countCreate l1 + countCreate l2 :=
  List.countP_append _ _ _

theorem bucketExistsQ_events (be : Backend) :
    (AWSStorage.bucketExistsQ be).2 = [S3Event.headBucket] := by
  unfold AWSStorage.bucketExistsQ
  rcases h : be.sendHeadBucket with e | u
  · dsimp only
    split <;> rfl
  · rfl

theorem bucketCreate_cases (be : Backend) :
    (∃ e, AWSStorage.bucketCreate be
      = (Except.error (OpErr.backend e), [S3Event.getBucketTagging])) ∨
    AWSStorage.bucketCreate be = (Except.ok { be with bucketExists := true },
      [S3Event.getBucketTagging, S3Event.createBucket,
        S3Event.putPublicAccessBlock, S3Event.putBucketTagging]) := by
  rcases hf : be.fault with _ | e
  · by_cases ht : be.templateOk = true
    · right
      simp [AWSStorage.bucketCreate, Backend.sendGetBucketTagging,
        Backend.sendCreateBucket, Backend.sendPutPublicAccessBlock,
        Backend.sendPutBucketTagging, hf, ht]
    · left
      refine ⟨⟨404, none⟩, ?_⟩
      simp [AWSStorage.bucketCreate, Backend.sendGetBucketTagging, hf, ht]
  · left
    refine ⟨e, ?_⟩
    simp [AWSStorage.bucketCreate, Backend.sendGetBucketTagging, hf]

theorem initOp_events_count (st : AWSStorage) (be : Backend) :
    countCreate (AWSStorage.initOp st be).events ≤ 1 ∧
    (∀ e, (AWSStorage.initOp st be).result = Except.error e →
      countCreate (AWSStorage.initOp st be).events = 0) := by
  unfold AWSStorage.initOp
  by_cases h0 : st.initDone = true
  · rw [if_pos h0]
    exact ⟨by simp [countCreate], fun e he => by simp at he⟩
  · rw [if_neg h0]
    by_cases h1 : st.readOnly = true
    · rw [if_pos h1]
      exact ⟨by simp [countCreate], fun e he => by simp at he⟩
    · rw [if_neg h1]
      rcases hbe : AWSStorage.bucketExistsQ be with ⟨r, evs⟩
      have hevs : evs = [S3Event.headBucket] := by
        have h2 := bucketExistsQ_events be
        rw [hbe] at h2
        exact h2
      subst hevs
      rcases r with e | b
      · exact ⟨by simp [countCreate], fun e2 he => by simp [countCreate]⟩
      · rcases b with _ | _
        · rcases hbc : AWSStorage.bucketCreate be with ⟨rc, evs2⟩
          rcases bucketCreate_cases be with ⟨e2, hcase⟩ | hcase <;>
            rw [hcase] at hbc <;>
            obtain ⟨hrc, hevs2⟩ := Prod.mk.injEq .. ▸ hbc <;>
            subst hrc <;> subst hevs2
          · exact ⟨by simp [countCreate], fun e3 he => by simp [countCreate]⟩
          · exact ⟨by simp [countCreate], fun e3 he => by simp at he⟩
        · exact ⟨by simp [countCreate], fun e2 he => by simp at he⟩

/-- C5: client initialization is idempotent: if one `_init` succeeds,
running `_init` again on the resulting states is a complete no-op (same
states, no backend events), and across two consecutive initializations
the bucket is created at most once. -/
theorem init_idempotent (st : AWSStorage) (be : Backend) :
    ((AWSStorage.initOp st be).result = Except.ok () →
      AWSStorage.initOp (AWSStorage.initOp st be).client
          (AWSStorage.initOp st be).backend
        = ⟨Except.ok (), (AWSStorage.initOp st be).client,
            (AWSStorage.initOp st be).backend, []⟩) ∧
    countCreate ((AWSStorage.initOp st be).events
      ++ (AWSStorage.initOp (AWSStorage.initOp st be).client
          (AWSStorage.initOp st be).backend).events) ≤ 1 := by
  constructor
  · intro hok
    exact initOp_of_initDone _ _ (initOp_ok_initDone st be hok)
  · rw [countCreate_append]
    rcases hres : (AWSStorage.initOp st be).result with e | u
    · have h1 : countCreate (AWSStorage.initOp st be).events = 0 :=
        (initOp_events_count st be).2 e hres
      have h2 : countCreate (AWSStorage.initOp (AWSStorage.initOp st be).client
          (AWSStorage.initOp st be).backend).events ≤ 1 :=
        (initOp_events_count _ _).1
      omega
    · cases u
      have h2 := initOp_of_initDone (AWSStorage.initOp st be).client
        (AWSStorage.initOp st be).backend (initOp_ok_initDone st be hres)
      rw [h2]
      dsimp only
      have h1 := (initOp_events_count st be).1
      have h0 : countCreate ([] : List S3Event) = 0 := rfl
      omega

/-- Witness for C5: a double initialization against a backend whose
bucket is missing creates the bucket exactly once and the second call
is a no-op. -/
theorem init_idempotent_witness :
    AWSStorage.initOp (AWSStorage.initOp ⟨"bloop", false, false⟩
        ⟨false, true, [], none⟩).client
        (AWSStorage.initOp ⟨"bloop", false, false⟩ ⟨false, true, [], none⟩).backend
      = ⟨Except.ok (), (AWSStorage.initOp ⟨"bloop", false, false⟩
          ⟨false, true, [], none⟩).client,
          (AWSStorage.initOp ⟨"bloop", false, false⟩ ⟨false, true, [], none⟩).backend,
          []⟩ ∧
    countCreate ((AWSStorage.initOp ⟨"bloop", false, false⟩
        ⟨false, true, [], none⟩).events
      ++ (AWSStorage.initOp (AWSStorage.initOp ⟨"bloop", false, false⟩
          ⟨false, true, [], none⟩).client
          (AWSStorage.initOp ⟨"bloop", false, false⟩
            ⟨false, true, [], none⟩).backend).events) ≤ 1 :=
  ⟨(init_idempotent ⟨"bloop", false, false⟩ ⟨false, true, [], none⟩).1 rfl,
    (init_idempotent ⟨"bloop", false, false⟩ ⟨false, true, [], none⟩).2⟩

/-- C6: with an initialized client, load and metadata return the null
sentinel exactly when the backend reports the key with a 404, rethrow
every other backend error unchanged, and metadata returns only the
stored metadata map. -/
theorem load_metadata_notfound (codec : Codec) (st : AWSStorage) (be : Backend)
    (key : String) (hinit : st.initDone = true) :
    ((AWSStorage.load codec st be key).result = Except.ok none ↔
      ∃ e, be.sendGetObject key = Except.error e ∧ e.httpStatusCode = 404) ∧
    (∀ e, be.sendGetObject key = Except.error e → e.httpStatusCode ≠ 404 →
      (AWSStorage.load codec st be key).result = Except.error (OpErr.backend e)) ∧
    ((AWSStorage.metadataOp st be key).result = Except.ok none ↔
      ∃ e, be.sendHeadObject key = Except.error e ∧ e.httpStatusCode = 404) ∧
    (∀ e, be.sendHeadObject key = Except.error e → e.httpStatusCode ≠ 404 →
      (AWSStorage.metadataOp st be key).result = Except.error (OpErr.backend e)) ∧
    (∀ obj, be.sendHeadObject key = Except.ok obj →
      (AWSStorage.metadataOp st be key).result = Except.ok (some obj.metadata)) := by
  have hload : AWSStorage.load codec st be key
      = AWSStorage.loadAfterInit codec ⟨Except.ok (), st, be, []⟩ key := by
    unfold AWSStorage.load
    rw [initOp_of_initDone st be hinit]
  have hmeta : AWSStorage.metadataOp st be key
      = AWSStorage.metadataAfterInit ⟨Except.ok (), st, be, []⟩ key := by
    unfold AWSStorage.metadataOp
    rw [initOp_of_initDone st be hinit]
  rw [hload, hmeta]
  unfold AWSStorage.loadAfterInit AWSStorage.metadataAfterInit
  dsimp only
  refine ⟨?_, ?_, ?_, ?_, ?_⟩
  · rcases hg : be.sendGetObject key with e | obj
    · dsimp only
      by_cases h404 : e.httpStatusCode = 404
      · rw [if_neg (by simpa using h404)]
        constructor
        · intro _
          exact ⟨e, rfl, h404⟩
        · intro _
          rfl
      · rw [if_pos h404]
        constructor
        · intro hcon
          simp at hcon
        · rintro ⟨e2, he2, h4⟩
          injection he2 with he2
          subst he2
          exact absurd h4 h404
    · dsimp only
      constructor
      · by_cases henc : obj.contentEncoding = some "gzip"
        · rw [if_pos henc]
          intro hcon
          simp at hcon
        · rw [if_neg henc]
          intro hcon
          simp at hcon
      · rintro ⟨e2, he2, _⟩
        simp at he2
  · intro e hg h404
    rw [hg]
    dsimp only
    rw [if_pos h404]
  · rcases hh : be.sendHeadObject key with e | obj
    · dsimp only
      by_cases h404 : e.httpStatusCode = 404
      · rw [if_neg (by simpa using h404)]
        constructor
        · intro _
          exact ⟨e, rfl, h404⟩
        · intro _
          rfl
      · rw [if_pos h404]
        constructor
        · intro hcon
          simp at hcon
        · rintro ⟨e2, he2, h4⟩
          injection he2 with he2
          subst he2
          exact absurd h4 h404
    · dsimp only
      constructor
      · intro hcon
        simp at hcon
      · rintro ⟨e2, he2, _⟩
        simp at he2
  · intro e hh h404
    rw [hh]
    dsimp only
    rw [if_pos h404]
  · intro obj hh
    rw [hh]

/-- Witness for C6: a missing key yields the null sentinel, and an
injected 403 fault propagates unchanged. -/
theorem load_metadata_notfound_witness :
    (AWSStorage.load demoCodec ⟨"bloop", false, true⟩ ⟨true, true, [], none⟩
      "live/path").result = Except.ok none ∧
    (AWSStorage.metadataOp ⟨"bloop", false, true⟩
      ⟨true, true, [], some ⟨403, none⟩⟩ "live/path").result
      = Except.error (OpErr.backend ⟨403, none⟩) := by
  constructor
  · exact (load_metadata_notfound demoCodec ⟨"bloop", false, true⟩
      ⟨true, true, [], none⟩ "live/path" rfl).1.mpr ⟨⟨404, some "NoSuchKey"⟩, rfl, rfl⟩
  · exact (load_metadata_notfound demoCodec ⟨"bloop", false, true⟩
      ⟨true, true, [], some ⟨403, none⟩⟩ "live/path" rfl).2.2.2.1
      ⟨403, none⟩ rfl (by decide)

/-! ## C9: parameter validation precedes all I/O -/

/-- C9: whenever owner, repo, ref or path is missing or empty, the
handler answers 400 with the descriptive message and performs no I/O at
all: no storage client is constructed, no fstab is loaded or matched,
and no fetch is issued (the event trace is empty). -/
theorem validation_before_io (p : MainParams) (w : MainWorld)
    (h : (truthyParam p.owner && truthyParam p.repo && truthyParam p.ref &&
      truthyParam p.path) = false) :
    mainModel p w = ⟨400, "owner, repo, ref, and path parameters are required", []⟩ := by
  unfold mainModel
  rw [h]
  rfl

/-- A trivial collaborator world for the C9 witness. -/
def c9World : MainWorld :=
  { codec := demoCodec
    codeBackend := ⟨true, true, [], none⟩
    contentBackend := ⟨true, true, [], none⟩
    fstabMatch := fun _ => none
    hashHex := fun _ => ""
    timeoutExternal := none
    requestId := ""
    token := Val.undef
    proxyOk := true
    proxyStatus := 200
    proxyBody := []
    proxyHeaders := [] }

/-- Witness for C9: a request with no owner parameter. -/
theorem validation_before_io_witness :
    mainModel ⟨none, some "repo", some "ref", some "/p", none, Val.undef⟩ c9World
      = ⟨400, "owner, repo, ref, and path parameters are required", []⟩ :=
  validation_before_io ⟨none, some "repo", some "ref", some "/p", none, Val.undef⟩
    c9World rfl

/-! ## C8: the escapeTagValue character class

The claim (and the function's own doc comment) says the allowed
characters are letters, digits, space and `+ - = . _ : / @`.  The regex
class `[A-Za-z0-9 +-=._:/@]` actually read by the engine contains the
code point RANGE from `+` (43) to `=` (61), which additionally admits
`,` (44), `;` (59) and `<` (60); the repository's utils test asserts
exactly this behaviour. -/

/-- Modelled from the amended specification words: the allowed set is
letters (65-90, 97-122), digits (48-57), space (32), the characters
`+ - = . _ : / @` (43, 45, 61, 46, 95, 58, 47, 64) and additionally
`, ; <` (44, 59, 60), the rest of the code point range between `+`
and `=`. -/
def specAllowedTagChar (c : Char) : Bool :=
  let n := c.toNat
  (65 ≤ n && n ≤ 90) || (97 ≤ n && n ≤ 122) || (48 ≤ n && n ≤ 57) ||
  n = 32 || n = 43 || n = 45 || n = 61 || n = 46 || n = 95 || n = 58 ||
  n = 47 || n = 64 || n = 44 || n = 59 || n = 60

theorem tagClass_eq (c : Char) : allowedByRegexClass c = specAllowedTagChar c := by
  unfold allowedByRegexClass specAllowedTagChar
  rw [Bool.eq_iff_iff]
  simp only [Bool.or_eq_true, Bool.and_eq_true, decide_eq_true_eq]
  omega

/-- The C8 claim is false at the input ";": a semicolon matches neither
URL pattern and is outside the allowed set listed by the claim, so the
claim predicts the output "_", but the code leaves it unchanged because
the class range from `+` to `=` contains `;`. -/
theorem escapeTagValue_semicolon_kept :
    escapeTagValue ";" = ";" ∧ (";" : String) ≠ "_" := by
  constructor
  · rfl
  · decide

/-- C8 as amended: `escapeTagValue` URI-decodes sharepoint URLs,
truncates Google Drive URLs at the first question mark, and otherwise
replaces every character outside the amended allowed set (which also
contains the characters `, ; <`) by an underscore, leaving characters
inside the set unchanged. -/
theorem escapeTagValue_amended (value : String) :
    (matchesSharepoint value = true → escapeTagValue value = decodeURI value) ∧
    (matchesSharepoint value = false → matchesGoogle value = true →
      escapeTagValue value = String.mk (value.data.take
        ((value.data.findIdx? (fun c => c = '?')).getD value.data.length))) ∧
    (matchesSharepoint value = false → matchesGoogle value = false →
      escapeTagValue value
        = String.mk (value.data.map
            (fun c => if specAllowedTagChar c then c else '_'))) := by
  refine ⟨?_, ?_, ?_⟩
  · intro h
    unfold escapeTagValue
    rw [if_pos h]
  · intro h1 h2
    unfold escapeTagValue
    rw [if_neg (by simp [h1]), if_pos h2]
    rcases hq : value.data.findIdx? (fun c => c = '?') with _ | q
    · simp
    · simp
  · intro h1 h2
    unfold escapeTagValue
    rw [if_neg (by simp [h1]), if_neg (by simp [h2])]
    simp only [tagClass_eq]

/-- Witness for the amended C8 at the same input ";", which the amended
allowed set keeps unchanged. -/
theorem escapeTagValue_amended_witness :
    matchesSharepoint ";" = false ∧ matchesGoogle ";" = false ∧
    escapeTagValue ";" = String.mk (";".data.map
      (fun c => if specAllowedTagChar c then c else '_')) :=
  ⟨rfl, rfl, (escapeTagValue_amended ";").2.2 rfl rfl⟩

/-! ## C7: the conditional-fetch metadata key

store records the upstream `last-modified` header under the metadata key
`x-source-last-modified` (the `METADATA_HEADER_MAP` rename), but `main`
primes the conditional fetch with `metadata['last-modified']`
(index.js line 151), a key store never writes.  The stored value
therefore never reaches the `if-modified-since` header. -/

/-- An upstream response carrying a `last-modified` header. -/
def c7Response : ResponseData :=
  ⟨[104, 101, 108, 108, 111], [("last-modified", "Fri, 07 May 2021 18:03:19 GMT")]⟩

/-- The result of storing `c7Response` at `live/mnt/post.md` in a fresh
content bucket. -/
def c7Stored : OpOut Unit :=
  AWSStorage.store demoCodec ⟨"h3abc", false, false⟩ ⟨true, true, [], none⟩
    "live/mnt/post.md" c7Response

/-- A collaborator world whose content bucket holds the stored object
and whose code bus serves an fstab for the request. -/
def c7World : MainWorld :=
  { codec := demoCodec
    codeBackend := ⟨true, true, [("o/r/b/fstab.yaml", ⟨[102], none, [], []⟩)], none⟩
    contentBackend := c7Stored.backend
    fstabMatch := fun _ => some "https://x"
    hashHex := fun _ => "abc"
    timeoutExternal := none
    requestId := "rid"
    token := Val.undef
    proxyOk := true
    proxyStatus := 200
    proxyBody := [104]
    proxyHeaders := [] }

/-- The update request for the stored key, with useLastModified on. -/
def c7Params : MainParams :=
  ⟨some "o", some "r", some "b", some "/mnt/post.md", none, Val.bool true⟩

/-- The fetch options sent upstream during a handler run. -/
def fetchEvents (evs : List MainEvent) : List (List (String × Val)) :=
  evs.filterMap (fun ev =>
    match ev with
    | MainEvent.fetchContent o => some o
    | _ => none)

/-- C7 is false on the code: the metadata stored for the key holds the
upstream value under `x-source-last-modified`, the update request with
useLastModified on completes (status 200), yet the single outbound
fetch carries no `if-modified-since` header, because main reads the
metadata key `last-modified` which store never writes. -/
theorem conditional_fetch_reads_wrong_key :
    (AWSStorage.metadataOp c7Stored.client c7Stored.backend "live/mnt/post.md").result
      = Except.ok (some [("x-source-last-modified", "Fri, 07 May 2021 18:03:19 GMT")]) ∧
    (mainModel c7Params c7World).status = 200 ∧
    (fetchEvents (mainModel c7Params c7World).events).map
        (fun o => headerVal o "if-modified-since")
      = [some Val.undef] :=
  ⟨rfl, rfl, rfl⟩

end ContentBus
